import Mathlib

/-!
Shallow embedding of `src/gpstrace.py`, a generator of simulated GPS traces,
together with proofs about its core functions.

Modelling conventions:
* Timestamps and durations are natural numbers of seconds.  The source works
  with `datetime`/`timedelta` values; all arithmetic it performs on them is
  addition of second counts and comparison, which `Nat` models exactly.
  `datetime.weekday()` (Monday = 0) is modelled from the count of seconds
  since the Unix epoch; 1970-01-01 was a Thursday, i.e. weekday 3.
* Python floats (`latitude`, `longitude`, `probability`) are modelled as
  rationals; the claims under study only compare them, never round them.
* `random.randint(a, b)` draws from the ambient process-wide generator.  The
  generator is modelled as a stream `g : Nat -> Nat` of raw draws together
  with a counter `k` threaded through the trace engine; the `k`-th call of
  `randint(a, b)` returns `a + g k % (b - a + 1)`, which lies in `[a, b]`
  whenever `a <= b`.
* Fallible constructors and parsers return `Except String`; the carried
  string keeps only the data the message interpolates (the location or route
  name), avoiding any claim about exact message text.
* Python object identity equality (`==` on `Location` instances) is modelled
  by structural equality; the configuration loader builds one object per
  location name, so the two coincide on loaded configurations.
* The `while` loops of the source are embedded as recursions: the ping loop
  with an explicit iteration bound (each pass advances time by
  `VISIT_PING_TIME = 600 >= 1` seconds, so `end - start` bounds the number of
  passes), and the trace engine's main loop with caller-supplied fuel, since
  the source loop need not terminate (a cycle of zero-dwell routes).
  `none` means "still running after `fuel` iterations".
-/

namespace GpsTrace

/-- Ping interval constant of the source: `VISIT_PING_TIME = 10 * 60` seconds. -/
def VISIT_PING_TIME : Nat := 10 * 60

/-- Embedding of class `Location`: a named point with coordinates and a
`visit_time` range `(min, max)` in seconds.  The type-level checks of
`Location.__init__` (floats, 2-tuple) are enforced by the Lean types. -/
structure Location where
  name : String
  latitude : ℚ
  longitude : ℚ
  visit_time : Nat × Nat
deriving DecidableEq

/-- Embedding of `Location.__init__`: `if not visit_time: visit_time = (0,0)`
(an absent range defaults to `(0, 0)`). -/
def mkLocation (name : String) (latitude longitude : ℚ)
    (visit_time : Option (Nat × Nat)) : Location :=
  { name := name, latitude := latitude, longitude := longitude,
    visit_time := visit_time.getD (0, 0) }

/-- Embedding of `Location.random_visit`:
`timedelta(seconds=random.randint(visit_time[0], visit_time[1]))`, where `r`
is the raw draw taken from the ambient generator stream. -/
def random_visit (loc : Location) (r : Nat) : Nat :=
  loc.visit_time.1 + r % (loc.visit_time.2 - loc.visit_time.1 + 1)

/-- Embedding of class `Route`: start, end, waypoints, selection probability
and active weekdays. -/
structure Route where
  name : String
  start_at : Location
  end_at : Location
  waypoints : List Location
  probability : ℚ
  weekdays : List Int
deriving DecidableEq

/-- Embedding of `weekdays or range(8)` from `Route.__init__`: `None` and the
empty tuple are falsy in Python, so both yield `range(8) = (0, ..., 7)`. -/
def route_weekdays (weekdays : Option (List Int)) : List Int :=
  match weekdays with
  | some l => if l = [] then (List.range 8).map Int.ofNat else l
  | none => (List.range 8).map Int.ofNat

/-- Embedding of `Route.__init__`.  The `isinstance` checks on `start_at`,
`end_at` and the waypoint elements are enforced by the Lean types; the only
remaining run-time check of the constructor is the probability test, kept
exactly as the source writes it:
`probability < 0.0 and probability > 1.0` (note: `and`, not `or`).
`waypoints or []` is `None`-defaulting as in the source. -/
def mkRoute (name : String) (start_at end_at : Location)
    (waypoints : Option (List Location)) (probability : ℚ)
    (weekdays : Option (List Int)) : Except String Route :=
  if probability < 0 ∧ probability > 1 then
    Except.error ("probability must be a floating point number between 0.0 and 1.0")
  else
    Except.ok { name := name, start_at := start_at, end_at := end_at,
                waypoints := waypoints.getD [], probability := probability,
                weekdays := route_weekdays weekdays }

/-! ### Configuration-format parsing helpers (pure sub-rules of the loader) -/

/-- Digit test and value used to model Python `int()` on a single character. -/
def digitVal (c : Char) : Option Nat :=
  if c.isDigit then some (c.toNat - 48) else none

/-- Accumulating decimal reader: consumes characters left to right, failing on
the first non-digit. -/
def digitsToNatAux (acc : Nat) : List Char → Option Nat
  | [] => some acc
  | c :: cs =>
    match digitVal c with
    | some d => digitsToNatAux (acc * 10 + d) cs
    | none => none

/-- Decimal reader: at least one digit is required (`int('')` raises). -/
def digitsToNat (cs : List Char) : Option Nat :=
  if cs.isEmpty then none else digitsToNatAux 0 cs

/-- ASCII whitespace as stripped by Python 2 `str.strip()` and `int()`:
space, tab, newline, carriage return, vertical tab, form feed. -/
def py_whitespace (c : Char) : Bool :=
  c == ' ' || c == '\t' || c == '\n' || c == '\r' || c == '\x0b' || c == '\x0c'

/-- Strip surrounding ASCII whitespace from both ends, as Python `int()`
does before parsing its argument. -/
def py_strip (cs : List Char) : List Char :=
  ((cs.dropWhile py_whitespace).reverse.dropWhile py_whitespace).reverse

/-- Sign-and-digits core of Python `int(s)`: an optional sign immediately
followed by one or more decimal digits (no interior whitespace). -/
def py_int_core (cs : List Char) : Option Int :=
  match cs with
  | [] => none
  | c :: rest =>
    if c = '-' then (digitsToNat rest).map (fun n => -(n : Int))
    else if c = '+' then (digitsToNat rest).map (fun n => (n : Int))
    else (digitsToNat cs).map (fun n => (n : Int))

/-- Model of Python `int(s)`: the surrounding ASCII whitespace is stripped
first (a tab- or newline-padded digit string is accepted), then an optional
sign followed by one or more decimal digits is required (`int('')` and
`int` of pure whitespace raise). -/
def py_int (cs : List Char) : Option Int :=
  py_int_core (py_strip cs)

/-- Embedding of Python `str.split(',')`: the number of parts is the number of
commas plus one, and an empty string yields one empty part. -/
def split_commas : List Char → List (List Char)
  | [] => [[]]
  | c :: rest =>
    if c = ',' then [] :: split_commas rest
    else
      match split_commas rest with
      | p :: ps => (c :: p) :: ps
      | [] => [[c]]

/-- Embedding of the per-part conversion in `TravelTracer.parse_visit_time`:
`endswith('h')` multiplies by 3600, `endswith('m')` by 60, `endswith('s')` and
the bare case read the integer as seconds.  `part[:-1]` is `dropLast`. -/
def parse_time_part (part : List Char) : Option Int :=
  if part.getLast? = some 'h' then (py_int part.dropLast).map (fun n => n * 3600)
  else if part.getLast? = some 'm' then (py_int part.dropLast).map (fun n => n * 60)
  else if part.getLast? = some 's' then py_int part.dropLast
  else py_int part

/-- Embedding of `TravelTracer.parse_visit_time`: removes spaces, splits on
commas, requires exactly two parts, converts each; any `ValueError` is
reported as an error carrying the offending location's name. -/
def parse_visit_time (visit_time : List Char) (location : String) :
    Except String (Int × Int) :=
  match split_commas (visit_time.filter (fun c => c ≠ ' ')) with
  | [p1, p2] =>
    match parse_time_part p1, parse_time_part p2 with
    | some a, some b => Except.ok (a, b)
    | _, _ => Except.error location
  | _ => Except.error location

/-- Loop body of `TravelTracer.parse_weekdays`: each part must be an integer
in `[0, 6]`; the first failure aborts the whole parse. -/
def parse_weekdays_loop : List (List Char) → Option (List Int)
  | [] => some []
  | p :: ps =>
    match py_int p with
    | none => none
    | some day =>
      if day < 0 ∨ day > 6 then none
      else (parse_weekdays_loop ps).map (fun rest => day :: rest)

/-- Embedding of `TravelTracer.parse_weekdays`: removes spaces, splits on
commas, parses every part as a weekday in `[0, 6]`; a failure is reported as
an error carrying the offending route's name. -/
def parse_weekdays (weekdays : List Char) (name : String) :
    Except String (List Int) :=
  match parse_weekdays_loop (split_commas (weekdays.filter (fun c => c ≠ ' '))) with
  | some result => Except.ok result
  | none => Except.error name

/-! ### Route selector and trace engine -/

/-- The tracer state the trace engine reads: the ordered route list loaded
from the configuration.  (Reading the configuration file itself is external
I/O; the engine only consumes `self.routes`.) -/
structure TravelTracer where
  routes : List Route
deriving DecidableEq

/-- Eligibility test of `choose_route`, in source order:
`route.start_at == start_at and weekday in route.weekdays`. -/
def eligible (weekday : Int) (start_at : Location) (r : Route) : Prop :=
  r.start_at = start_at ∧ weekday ∈ r.weekdays

instance (weekday : Int) (start_at : Location) (r : Route) :
    Decidable (eligible weekday start_at r) := by
  unfold eligible; infer_instance

/-- The scan of `TravelTracer.choose_route`: walks the route list keeping the
best candidate so far (`max_probability` starts at `0.0`, comparison is the
source's strict `route.probability > max_probability`). -/
def choose_route_loop (weekday : Int) (start_at : Location) :
    List Route → ℚ → Option Route → Option Route
  | [], _, chosen => chosen
  | r :: rs, maxp, chosen =>
    if r.start_at = start_at ∧ weekday ∈ r.weekdays ∧ r.probability > maxp then
      choose_route_loop weekday start_at rs r.probability (some r)
    else
      choose_route_loop weekday start_at rs maxp chosen

/-- Embedding of `TravelTracer.choose_route`: if the scan keeps no route,
`NoAvailableRouteError` is raised carrying the current location's name
(modelled as `Except.error start_at.name`). -/
def choose_route (tt : TravelTracer) (weekday : Int) (start_at : Location) :
    Except String Route :=
  match choose_route_loop weekday start_at tt.routes 0 none with
  | some r => Except.ok r
  | none => Except.error start_at.name

/-- Model of `datetime.weekday()` on a timestamp counted in seconds since the
Unix epoch: Monday = 0, and 1970-01-01 was a Thursday (= 3). -/
def weekday (Tc : Nat) : Int :=
  Int.ofNat ((Tc / 86400 + 3) % 7)

/-- Iteration of the `while Tc < end_time` loop of
`TravelTracer.generate_pings`, with an explicit bound on the number of
passes.  Each pass advances `Tc` by `VISIT_PING_TIME = 600 >= 1`, so
`end_time - Tc` passes always suffice; `ping_loop` supplies that bound. -/
def ping_loop_go (end_time : Nat) : Nat → Nat → List Nat
  | 0, _ => []
  | fuel + 1, Tc =>
    if Tc < end_time then Tc :: ping_loop_go end_time fuel (Tc + VISIT_PING_TIME)
    else []

/-- The `while` loop of `TravelTracer.generate_pings` starting at `Tc`. -/
def ping_loop (Tc end_time : Nat) : List Nat :=
  ping_loop_go end_time (end_time - Tc) Tc

/-- Embedding of `TravelTracer.generate_pings`: one timestamp every
`VISIT_PING_TIME` seconds from `start_time` while strictly below
`start_time + visit_time`.  The `location` argument is unused, exactly as in
the source. -/
def generate_pings (_location : Location) (start_time visit_time : Nat) : List Nat :=
  ping_loop start_time (start_time + visit_time)

/-- Embedding of the `for wp in route.waypoints` loop of
`TravelTracer.trace`: emit `(wp, Tc)`, then advance `Tc` by
`wp.random_visit()`.  Returns the emitted points, the final time and the
final draw counter. -/
def trace_waypoints (g : Nat → Nat) : Nat → List Location → Nat →
    List (Location × Nat) × Nat × Nat
  | k, [], Tc => ([], Tc, k)
  | k, wp :: rest, Tc =>
    let r := trace_waypoints g (k + 1) rest (Tc + random_visit wp (g k))
    ((wp, Tc) :: r.1, r.2)

/-- One chosen route's traversal inside the main loop of
`TravelTracer.trace`: ping expansion at the start location, one point per
waypoint, ping expansion at the end location.  Returns the emitted points,
the final time and the final draw counter. -/
def trace_route (g : Nat → Nat) (route : Route) (Tc : Nat) (k : Nat) :
    List (Location × Nat) × Nat × Nat :=
  let d1 := random_visit route.start_at (g k)
  let startPings := (generate_pings route.start_at Tc d1).map
    (fun t => (route.start_at, t))
  let w := trace_waypoints g (k + 1) route.waypoints (Tc + d1)
  let d2 := random_visit route.end_at (g w.2.2)
  let endPings := (generate_pings route.end_at w.2.1 d2).map
    (fun t => (route.end_at, t))
  (startPings ++ w.1 ++ endPings, w.2.1 + d2, w.2.2 + 1)

/-- One iteration of the main loop of `TravelTracer.trace`: choose a route
(the uncaught `NoAvailableRouteError` surfaces as `Except.error`), traverse
it, move to its end location. -/
def trace_step (tt : TravelTracer) (g : Nat → Nat)
    (points : List (Location × Nat)) (Tc : Nat) (Lc : Location) (k : Nat) :
    Except String (List (Location × Nat) × Nat × Location × Nat) :=
  match choose_route tt (weekday Tc) Lc with
  | Except.error e => Except.error e
  | Except.ok route =>
    let r := trace_route g route Tc k
    Except.ok (points ++ r.1, r.2.1, route.end_at, r.2.2)

/-- The `while Tc < end_time` main loop of `TravelTracer.trace`, with fuel:
`none` means the loop has not finished within `fuel` iterations (the source
loop can genuinely diverge on zero-dwell route cycles). -/
def trace_loop (tt : TravelTracer) (g : Nat → Nat) :
    Nat → Nat → List (Location × Nat) → Nat → Location → Nat →
    Option (Except String (List (Location × Nat)))
  | 0, _, _, _, _, _ => none
  | fuel + 1, end_time, points, Tc, Lc, k =>
    if Tc < end_time then
      match trace_step tt g points Tc Lc k with
      | Except.error e => some (Except.error e)
      | Except.ok (points2, Tc2, Lc2, k2) =>
        trace_loop tt g fuel end_time points2 Tc2 Lc2 k2
    else some (Except.ok points)

/-- Embedding of `TravelTracer.trace`: an absent `end_time` defaults to one
day (86400 seconds) after `start_time`; the accumulator starts empty, time at
`start_time`, location at `start_at`, draw counter at 0. -/
def trace (tt : TravelTracer) (g : Nat → Nat) (fuel : Nat)
    (start_at : Location) (start_time : Nat) (end_time : Option Nat) :
    Option (Except String (List (Location × Nat))) :=
  trace_loop tt g fuel (end_time.getD (start_time + 86400)) [] start_time start_at 0


/-! ### Spec-side characterizations used in refinement statements -/

/-- Spec-side decimal value of a digit string. -/
def digitsVal (cs : List Char) : Nat :=
  cs.foldl (fun a c => a * 10 + (c.toNat - 48)) 0

/-- Spec-side shape of an integer: a non-empty digit string, optionally signed. -/
def specIsInt (cs : List Char) : Bool :=
  match cs with
  | [] => false
  | c :: rest =>
    if c = '-' ∨ c = '+' then !rest.isEmpty && rest.all Char.isDigit
    else cs.all Char.isDigit

/-- Spec-side signed decimal value. -/
def specIntValue (cs : List Char) : Int :=
  match cs with
  | [] => 0
  | c :: rest =>
    if c = '-' then -(digitsVal rest : Int)
    else if c = '+' then (digitsVal rest : Int)
    else (digitsVal cs : Int)

/-- Spec-side shape of one visit_time part: an optional final unit suffix
h/m/s, whose remaining body — after stripping the surrounding ASCII
whitespace that Python `int()` tolerates — is an optionally-signed
integer. -/
def specIsTimePart (part : List Char) : Bool :=
  if part.getLast? = some 'h' ∨ part.getLast? = some 'm' ∨ part.getLast? = some 's'
  then specIsInt (py_strip part.dropLast)
  else specIsInt (py_strip part)

/-- Spec-side value in seconds of one visit_time part: h multiplies by 3600,
m by 60, s and the bare case are taken as they are. -/
def specTimePartValue (part : List Char) : Int :=
  if part.getLast? = some 'h' then specIntValue (py_strip part.dropLast) * 3600
  else if part.getLast? = some 'm' then specIntValue (py_strip part.dropLast) * 60
  else if part.getLast? = some 's' then specIntValue (py_strip part.dropLast)
  else specIntValue (py_strip part)

def specWellFormedVisitTime (s : List Char) : Bool :=
  match split_commas (s.filter (fun c => c ≠ ' ')) with
  | [p1, p2] => specIsTimePart p1 && specIsTimePart p2
  | _ => false

/-! ### Concrete fixture configurations -/

/-- The all-zero raw-draw stream (any stream gives the same dwell when
`min = max`). -/
def gZero : Nat → Nat := fun _ => 0

/-- A location with the default `(0, 0)` dwell range. -/
def locA : Location := mkLocation ("A") 0 0 none

/-- A second location with the default dwell range. -/
def locB : Location := mkLocation ("B") 1 1 none

/-- A tracer configured with no routes at all. -/
def tracerNoRoutes : TravelTracer := ⟨[]⟩

/-- A zero-dwell location for the divergent self-loop configuration. -/
def locZ : Location := mkLocation ("Z") 0 0 (some (0, 0))

/-- A self-loop route on `locZ`, always eligible, probability 1. -/
def routeZ : Route :=
  { name := "rZ", start_at := locZ, end_at := locZ, waypoints := [],
    probability := 1, weekdays := route_weekdays none }

/-- The zero-dwell cycle configuration of the spec's section 9. -/
def cfgZero : TravelTracer := ⟨[routeZ]⟩

/-- The zero-dwell self-loop run never finishes, whatever the fuel. -/
def zero_dwell_runs_forever : Prop :=
  ∀ fuel, trace_loop cfgZero gZero fuel 100 [] 0 locZ 0 = none

/-- A location whose dwell range is the constant 1 second. -/
def locP : Location := mkLocation ("P") 0 0 (some (1, 1))

/-- A self-loop route on `locP`, always eligible, probability 1. -/
def routeP : Route :=
  { name := "rP", start_at := locP, end_at := locP, waypoints := [],
    probability := 1, weekdays := route_weekdays none }

/-- A configuration in which every route start has positive minimal dwell. -/
def cfgPos : TravelTracer := ⟨[routeP]⟩

/-- Start location (zero dwell) of the tie example. -/
def locA5 : Location := mkLocation ("A5") 0 0 none

/-- Waypoint (zero dwell) of the tie example. -/
def locW5 : Location := mkLocation ("W5") 1 1 none

/-- End location with one full 600-second dwell in the tie example. -/
def locB5 : Location := mkLocation ("B5") 2 2 (some (600, 600))

/-- Route of the tie example: zero-dwell start, one zero-dwell waypoint, a
600-second end stop. -/
def routeC5 : Route :=
  { name := "r5", start_at := locA5, end_at := locB5, waypoints := [locW5],
    probability := 1, weekdays := route_weekdays none }

/-- Configuration of the tie example. -/
def cfgC5 : TravelTracer := ⟨[routeC5]⟩

/-- The route `mkRoute` builds when the weekdays argument is omitted. -/
def routeDefault : Route :=
  { name := "r", start_at := locA, end_at := locB, waypoints := [],
    probability := 1, weekdays := [0, 1, 2, 3, 4, 5, 6, 7] }

/-- The route `mkRoute` builds for probability 3/2 (outside [0, 1]). -/
def routeProb32 : Route :=
  { name := "r", start_at := locA, end_at := locB, waypoints := [],
    probability := 3 / 2, weekdays := [0, 1, 2, 3, 4, 5, 6, 7] }

/-- The route `mkRoute` builds for probability -1/2 (outside [0, 1]). -/
def routeProbNeg : Route :=
  { name := "r", start_at := locA, end_at := locB, waypoints := [],
    probability := -1 / 2, weekdays := [0, 1, 2, 3, 4, 5, 6, 7] }

/-- Arrival times of the waypoints: the time at which each waypoint is
reached, the drawn dwell being added only after the single observation. -/
def waypoint_arrivals (g : Nat → Nat) : Nat → List Location → Nat → List Nat
  | _, [], _ => []
  | k, wp :: rest, Tc => Tc :: waypoint_arrivals g (k + 1) rest (Tc + random_visit wp (g k))

/-! ### Closed form of the ping loop -/

theorem ping_loop_go_eq (e : Nat) : ∀ (fuel Tc : Nat), e - Tc ≤ fuel →
    ping_loop_go e fuel Tc =
      (List.range ((e - Tc + 599) / 600)).map (fun i => Tc + 600 * i) := by
  intro fuel
  induction fuel with
  | zero =>
    intro Tc h
    have hc : (e - Tc + 599) / 600 = 0 := by omega
    simp [ping_loop_go, hc]
  | succ n ih =>
    intro Tc h
    by_cases hlt : Tc < e
    · have h2 : e - (Tc + VISIT_PING_TIME) ≤ n := by
        simp only [VISIT_PING_TIME]; omega
      rw [ping_loop_go, if_pos hlt, ih _ h2]
      have hc : (e - Tc + 599) / 600 = (e - (Tc + VISIT_PING_TIME) + 599) / 600 + 1 := by
        simp only [VISIT_PING_TIME]; omega
      rw [hc, List.range_succ_eq_map]
      have hf : ((fun i => Tc + 600 * i) ∘ Nat.succ) =
          fun i => Tc + VISIT_PING_TIME + 600 * i := by
        funext i; simp only [Function.comp, VISIT_PING_TIME]; omega
      simp [List.map_map, hf]
    · rw [ping_loop_go, if_neg hlt]
      have hc : (e - Tc + 599) / 600 = 0 := by omega
      simp [hc]

theorem ping_loop_eq (Tc e : Nat) :
    ping_loop Tc e = (List.range ((e - Tc + 599) / 600)).map (fun i => Tc + 600 * i) :=
  ping_loop_go_eq e (e - Tc) Tc le_rfl

theorem generate_pings_eq (loc : Location) (T d : Nat) :
    generate_pings loc T d = (List.range ((d + 599) / 600)).map (fun i => T + 600 * i) := by
  rw [generate_pings, ping_loop_eq]
  have : T + d - T = d := by omega
  rw [this]

theorem generate_pings_mem (loc : Location) (T d t : Nat)
    (h : t ∈ generate_pings loc T d) : T ≤ t ∧ t < T + d := by
  rw [generate_pings_eq] at h
  simp only [List.mem_map, List.mem_range] at h
  obtain ⟨i, hi, rfl⟩ := h
  omega

theorem generate_pings_sorted (loc : Location) (T d : Nat) :
    (generate_pings loc T d).Pairwise (· < ·) := by
  rw [generate_pings_eq, List.pairwise_map]
  exact (List.pairwise_lt_range _).imp (by omega)

theorem generate_pings_length (loc : Location) (T d : Nat) :
    (generate_pings loc T d).length = (d + 599) / 600 := by
  rw [generate_pings_eq, List.length_map, List.length_range]

/-! ### Route selector invariants -/

theorem choose_route_loop_none (w : Int) (l : Location) :
    ∀ (rs : List Route) (maxp : ℚ) (chosen : Option Route),
      choose_route_loop w l rs maxp chosen = none →
      chosen = none ∧ ∀ r ∈ rs, eligible w l r → r.probability ≤ maxp := by
  intro rs
  induction rs with
  | nil =>
    intro maxp chosen h
    simp only [choose_route_loop] at h
    exact ⟨h, by simp⟩
  | cons r rs ih =>
    intro maxp chosen h
    simp only [choose_route_loop] at h
    by_cases hcond : r.start_at = l ∧ w ∈ r.weekdays ∧ r.probability > maxp
    · rw [if_pos hcond] at h
      have := (ih _ _ h).1
      exact absurd this (by simp)
    · rw [if_neg hcond] at h
      obtain ⟨h1, h2⟩ := ih _ _ h
      refine ⟨h1, ?_⟩
      intro r2 h3 he
      rcases List.mem_cons.mp h3 with h3 | h3
      · subst h3
        by_contra hgt
        push_neg at hgt
        exact hcond ⟨he.1, he.2, hgt⟩
      · exact h2 r2 h3 he

theorem choose_route_loop_some (w : Int) (l : Location) :
    ∀ (rs : List Route) (maxp : ℚ) (chosen : Option Route) (r : Route),
      choose_route_loop w l rs maxp chosen = some r →
      (chosen = some r ∧ ∀ r2 ∈ rs, eligible w l r2 → r2.probability ≤ maxp)
      ∨ (∃ pre post, rs = pre ++ r :: post ∧ eligible w l r ∧ maxp < r.probability ∧
          (∀ r2 ∈ pre, eligible w l r2 → r2.probability < r.probability) ∧
          (∀ r2 ∈ post, eligible w l r2 → r2.probability ≤ r.probability)) := by
  intro rs
  induction rs with
  | nil =>
    intro maxp chosen r h
    simp only [choose_route_loop] at h
    left
    exact ⟨h, by simp⟩
  | cons r0 rs ih =>
    intro maxp chosen r h
    simp only [choose_route_loop] at h
    by_cases hcond : r0.start_at = l ∧ w ∈ r0.weekdays ∧ r0.probability > maxp
    · rw [if_pos hcond] at h
      rcases ih _ _ _ h with ⟨heq, hall⟩ | ⟨pre, post, hsplit, helig, hlt, hpre, hpost⟩
      · injection heq with heq
        subst heq
        right
        refine ⟨[], rs, by simp, ⟨hcond.1, hcond.2.1⟩, hcond.2.2, by simp, hall⟩
      · right
        refine ⟨r0 :: pre, post, by rw [hsplit, List.cons_append], helig,
          lt_trans hcond.2.2 hlt, ?_, hpost⟩
        intro r2 h2 he2
        rcases List.mem_cons.mp h2 with h2 | h2
        · subst h2; exact hlt
        · exact hpre r2 h2 he2
    · rw [if_neg hcond] at h
      have hskip : eligible w l r0 → r0.probability ≤ maxp := by
        intro he
        by_contra hgt
        push_neg at hgt
        exact hcond ⟨he.1, he.2, hgt⟩
      rcases ih _ _ _ h with ⟨heq, hall⟩ | ⟨pre, post, hsplit, helig, hlt, hpre, hpost⟩
      · left
        refine ⟨heq, ?_⟩
        intro r2 h2 he2
        rcases List.mem_cons.mp h2 with h2 | h2
        · subst h2; exact hskip he2
        · exact hall r2 h2 he2
      · right
        refine ⟨r0 :: pre, post, by rw [hsplit, List.cons_append], helig, hlt, ?_, hpost⟩
        intro r2 h2 he2
        rcases List.mem_cons.mp h2 with h2 | h2
        · subst h2; exact lt_of_le_of_lt (hskip he2) hlt
        · exact hpre r2 h2 he2

theorem choose_route_cases (tt : TravelTracer) (w : Int) (l : Location) :
    (∀ r, choose_route tt w l = Except.ok r →
      0 < r.probability ∧ eligible w l r ∧
      ∃ pre post, tt.routes = pre ++ r :: post ∧
        (∀ r2 ∈ pre, eligible w l r2 → r2.probability < r.probability) ∧
        (∀ r2 ∈ post, eligible w l r2 → r2.probability ≤ r.probability))
    ∧ (∀ m, choose_route tt w l = Except.error m → m = l.name ∧
        ∀ r ∈ tt.routes, eligible w l r → r.probability ≤ 0)
    ∧ ((∀ r ∈ tt.routes, eligible w l r → r.probability ≤ 0) →
        choose_route tt w l = Except.error l.name) := by
  unfold choose_route
  cases h : choose_route_loop w l tt.routes 0 none with
  | none =>
    have hb := choose_route_loop_none w l tt.routes 0 none h
    refine ⟨?_, ?_, ?_⟩
    · intro r hr; exact absurd hr (by simp)
    · intro m hm
      refine ⟨by injection hm with hm; exact hm.symm, hb.2⟩
    · intro _; rfl
  | some r =>
    rcases choose_route_loop_some w l tt.routes 0 none r h with
      ⟨heq, _⟩ | ⟨pre, post, hsplit, helig, hlt, hpre, hpost⟩
    · exact absurd heq (by simp)
    · refine ⟨?_, ?_, ?_⟩
      · intro r2 hr2
        injection hr2 with hr2
        subst hr2
        exact ⟨hlt, helig, pre, post, hsplit, hpre, hpost⟩
      · intro m hm; exact absurd hm (by simp)
      · intro hall
        have hmem : r ∈ tt.routes := by rw [hsplit]; simp
        exact absurd (hall r hmem helig) (by simp [not_le]; exact hlt)

theorem choose_route_ok_mem (tt : TravelTracer) (w : Int) (l : Location) (r : Route)
    (h : choose_route tt w l = Except.ok r) : r ∈ tt.routes ∧ eligible w l r := by
  obtain ⟨_, helig, pre, post, hsplit, _, _⟩ := (choose_route_cases tt w l).1 r h
  exact ⟨by rw [hsplit]; simp, helig⟩


/-! ### Per-iteration facts about the trace engine -/

theorem trace_waypoints_fst (g : Nat → Nat) :
    ∀ (wps : List Location) (k Tc : Nat),
      (trace_waypoints g k wps Tc).1.map Prod.fst = wps := by
  intro wps
  induction wps with
  | nil => intro k Tc; simp [trace_waypoints]
  | cons wp rest ih => intro k Tc; simp [trace_waypoints, ih]

theorem trace_waypoints_snd (g : Nat → Nat) :
    ∀ (wps : List Location) (k Tc : Nat),
      (trace_waypoints g k wps Tc).1.map Prod.snd = waypoint_arrivals g k wps Tc := by
  intro wps
  induction wps with
  | nil => intro k Tc; simp [trace_waypoints, waypoint_arrivals]
  | cons wp rest ih => intro k Tc; simp [trace_waypoints, waypoint_arrivals, ih]

theorem trace_waypoints_time_le (g : Nat → Nat) :
    ∀ (wps : List Location) (k Tc : Nat), Tc ≤ (trace_waypoints g k wps Tc).2.1 := by
  intro wps
  induction wps with
  | nil => intro k Tc; simp [trace_waypoints]
  | cons wp rest ih =>
    intro k Tc
    simp only [trace_waypoints]
    exact le_trans (Nat.le_add_right _ _) (ih (k + 1) (Tc + random_visit wp (g k)))

theorem trace_waypoints_mem (g : Nat → Nat) :
    ∀ (wps : List Location) (k Tc t : Nat),
      t ∈ (trace_waypoints g k wps Tc).1.map Prod.snd →
      Tc ≤ t ∧ t ≤ (trace_waypoints g k wps Tc).2.1 := by
  intro wps
  induction wps with
  | nil => intro k Tc t h; simp [trace_waypoints] at h
  | cons wp rest ih =>
    intro k Tc t h
    simp only [trace_waypoints, List.map_cons, List.mem_cons] at h ⊢
    rcases h with rfl | h
    · exact ⟨le_refl _, le_trans (Nat.le_add_right _ _)
        (trace_waypoints_time_le g rest (k + 1) _)⟩
    · obtain ⟨h1, h2⟩ := ih (k + 1) _ t h
      exact ⟨le_trans (Nat.le_add_right _ _) h1, h2⟩

theorem trace_waypoints_sorted (g : Nat → Nat) :
    ∀ (wps : List Location) (k Tc : Nat),
      ((trace_waypoints g k wps Tc).1.map Prod.snd).Pairwise (· ≤ ·) := by
  intro wps
  induction wps with
  | nil => intro k Tc; simp [trace_waypoints]
  | cons wp rest ih =>
    intro k Tc
    simp only [trace_waypoints, List.map_cons]
    refine List.Pairwise.cons ?_ (ih (k + 1) (Tc + random_visit wp (g k)))
    intro t ht
    have := (trace_waypoints_mem g rest (k + 1) (Tc + random_visit wp (g k)) t ht).1
    omega

theorem trace_route_spec (g : Nat → Nat) (route : Route) (Tc k : Nat) :
    Tc + random_visit route.start_at (g k) ≤ (trace_route g route Tc k).2.1 ∧
    (∀ t ∈ (trace_route g route Tc k).1.map Prod.snd,
      Tc ≤ t ∧ t ≤ (trace_route g route Tc k).2.1) ∧
    ((trace_route g route Tc k).1.map Prod.snd).Pairwise (· ≤ ·) := by
  simp only [trace_route]
  have hwle : Tc + random_visit route.start_at (g k) ≤
      (trace_waypoints g (k + 1) route.waypoints
        (Tc + random_visit route.start_at (g k))).2.1 :=
    trace_waypoints_time_le g route.waypoints (k + 1) _
  have hmap : ∀ (l1 : Location) (s1 : List Nat) (wl : List (Location × Nat))
      (l2 : Location) (s2 : List Nat),
      ((s1.map (fun t => (l1, t)) ++ wl ++ s2.map (fun t => (l2, t))).map Prod.snd) =
        s1 ++ wl.map Prod.snd ++ s2 := by
    intro l1 s1 wl l2 s2
    simp [List.map_append, List.map_map, Function.comp]
  rw [hmap]
  refine ⟨le_trans hwle (Nat.le_add_right _ _), ?_, ?_⟩
  · intro t ht
    simp only [List.mem_append] at ht
    rcases ht with (ht | ht) | ht
    · obtain ⟨h1, h2⟩ := generate_pings_mem route.start_at Tc
        (random_visit route.start_at (g k)) t ht
      exact ⟨h1, by omega⟩
    · obtain ⟨h1, h2⟩ := trace_waypoints_mem g route.waypoints (k + 1)
        (Tc + random_visit route.start_at (g k)) t ht
      exact ⟨by omega, by omega⟩
    · obtain ⟨h1, h2⟩ := generate_pings_mem route.end_at
        (trace_waypoints g (k + 1) route.waypoints
          (Tc + random_visit route.start_at (g k))).2.1
        (random_visit route.end_at
          (g (trace_waypoints g (k + 1) route.waypoints
            (Tc + random_visit route.start_at (g k))).2.2)) t ht
      exact ⟨by omega, by omega⟩
  · rw [List.pairwise_append, List.pairwise_append]
    refine ⟨⟨(generate_pings_sorted route.start_at Tc _).imp (fun h => le_of_lt h),
      trace_waypoints_sorted g route.waypoints (k + 1) _, ?_⟩,
      (generate_pings_sorted route.end_at _ _).imp (fun h => le_of_lt h), ?_⟩
    · intro a ha b hb
      have h1 := (generate_pings_mem route.start_at Tc
        (random_visit route.start_at (g k)) a ha).2
      have h2 := (trace_waypoints_mem g route.waypoints (k + 1)
        (Tc + random_visit route.start_at (g k)) b hb).1
      omega
    · intro a ha b hb
      have hb2 := (generate_pings_mem route.end_at
        (trace_waypoints g (k + 1) route.waypoints
          (Tc + random_visit route.start_at (g k))).2.1
        (random_visit route.end_at
          (g (trace_waypoints g (k + 1) route.waypoints
            (Tc + random_visit route.start_at (g k))).2.2)) b hb).1
      simp only [List.mem_append] at ha
      rcases ha with ha | ha
      · have h1 := (generate_pings_mem route.start_at Tc
          (random_visit route.start_at (g k)) a ha).2
        omega
      · have h1 := (trace_waypoints_mem g route.waypoints (k + 1)
          (Tc + random_visit route.start_at (g k)) a ha).2
        omega

theorem trace_step_ok (tt : TravelTracer) (g : Nat → Nat)
    (points : List (Location × Nat)) (Tc : Nat) (Lc : Location) (k : Nat)
    (pts : List (Location × Nat)) (Tc2 : Nat) (Lc2 : Location) (k2 : Nat)
    (h : trace_step tt g points Tc Lc k = Except.ok (pts, Tc2, Lc2, k2)) :
    ∃ route, choose_route tt (weekday Tc) Lc = Except.ok route ∧
      pts = points ++ (trace_route g route Tc k).1 ∧
      Tc2 = (trace_route g route Tc k).2.1 ∧ Lc2 = route.end_at ∧
      k2 = (trace_route g route Tc k).2.2 := by
  unfold trace_step at h
  cases hc : choose_route tt (weekday Tc) Lc with
  | error e => rw [hc] at h; exact absurd h (by simp)
  | ok route =>
    rw [hc] at h
    simp only [Except.ok.injEq, Prod.mk.injEq] at h
    obtain ⟨h1, h2, h3, h4⟩ := h
    exact ⟨route, rfl, h1.symm, h2.symm, h3.symm, h4.symm⟩


/-! ### Whole-loop invariants of the trace engine -/

theorem trace_loop_sorted (tt : TravelTracer) (g : Nat → Nat) :
    ∀ (fuel end_time : Nat) (points : List (Location × Nat)) (Tc : Nat)
      (Lc : Location) (k : Nat) (res : List (Location × Nat)),
      (points.map Prod.snd).Pairwise (· ≤ ·) →
      (∀ t ∈ points.map Prod.snd, t ≤ Tc) →
      trace_loop tt g fuel end_time points Tc Lc k = some (Except.ok res) →
      (res.map Prod.snd).Pairwise (· ≤ ·) := by
  intro fuel
  induction fuel with
  | zero =>
    intro e points Tc Lc k res _ _ h
    simp [trace_loop] at h
  | succ n ih =>
    intro e points Tc Lc k res hs hb h
    rw [trace_loop] at h
    by_cases hlt : Tc < e
    · rw [if_pos hlt] at h
      cases hstep : trace_step tt g points Tc Lc k with
      | error m => rw [hstep] at h; simp at h
      | ok st =>
        obtain ⟨pts2, Tc2, Lc2, k2⟩ := st
        rw [hstep] at h
        obtain ⟨route, hcr, hpts, hTc2, hLc2, hk2⟩ :=
          trace_step_ok tt g points Tc Lc k pts2 Tc2 Lc2 k2 hstep
        obtain ⟨hadv, hmem, hsort⟩ := trace_route_spec g route Tc k
        refine ih e pts2 Tc2 Lc2 k2 res ?_ ?_ h
        · rw [hpts, List.map_append, List.pairwise_append]
          exact ⟨hs, hsort, fun a ha b hb2 => le_trans (hb a ha) (hmem b hb2).1⟩
        · intro t ht
          rw [hpts, List.map_append, List.mem_append] at ht
          rcases ht with ht | ht
          · have h1 := hb t ht
            have h2 : Tc ≤ (trace_route g route Tc k).2.1 := le_trans (Nat.le_add_right _ _) hadv
            omega
          · rw [hTc2]
            exact (hmem t ht).2
    · rw [if_neg hlt] at h
      simp only [Option.some.injEq, Except.ok.injEq] at h
      subst h
      exact hs

theorem trace_loop_isSome (tt : TravelTracer) (g : Nat → Nat)
    (hpos : ∀ r ∈ tt.routes, 0 < r.start_at.visit_time.1) :
    ∀ (fuel end_time : Nat) (points : List (Location × Nat)) (Tc : Nat)
      (Lc : Location) (k : Nat),
      end_time - Tc < fuel →
      (trace_loop tt g fuel end_time points Tc Lc k).isSome = true := by
  intro fuel
  induction fuel with
  | zero =>
    intro e points Tc Lc k h
    omega
  | succ n ih =>
    intro e points Tc Lc k h
    rw [trace_loop]
    by_cases hlt : Tc < e
    · rw [if_pos hlt]
      cases hstep : trace_step tt g points Tc Lc k with
      | error m => simp
      | ok st =>
        obtain ⟨pts2, Tc2, Lc2, k2⟩ := st
        obtain ⟨route, hcr, hpts, hTc2, hLc2, hk2⟩ :=
          trace_step_ok tt g points Tc Lc k pts2 Tc2 Lc2 k2 hstep
        have hm := (choose_route_ok_mem tt (weekday Tc) Lc route hcr).1
        have hd : 0 < random_visit route.start_at (g k) := by
          have := hpos route hm
          simp only [random_visit]
          omega
        have hadv := (trace_route_spec g route Tc k).1
        refine ih e pts2 Tc2 Lc2 k2 ?_
        omega
    · rw [if_neg hlt]
      simp

/-! ### Parsing refinement lemmas -/

theorem digitsToNatAux_all (cs : List Char) : ∀ acc, cs.all Char.isDigit = true →
    digitsToNatAux acc cs = some (cs.foldl (fun a c => a * 10 + (c.toNat - 48)) acc) := by
  induction cs with
  | nil => intro acc _; rfl
  | cons c rest ih =>
    intro acc hall
    simp only [List.all_cons, Bool.and_eq_true] at hall
    simp only [digitsToNatAux, digitVal, if_pos hall.1, List.foldl_cons]
    exact ih _ hall.2

theorem digitsToNatAux_not_all (cs : List Char) : ∀ acc, cs.all Char.isDigit = false →
    digitsToNatAux acc cs = none := by
  induction cs with
  | nil => intro acc h; simp at h
  | cons c rest ih =>
    intro acc hall
    simp only [List.all_cons, Bool.and_eq_false_iff] at hall
    by_cases hc : c.isDigit
    · simp only [digitsToNatAux, digitVal, if_pos hc]
      rcases hall with hall | hall
      · rw [hc] at hall; simp at hall
      · exact ih _ hall
    · simp only [digitsToNatAux, digitVal, if_neg hc]

theorem digitsToNat_all (cs : List Char) (hne : cs ≠ []) (hall : cs.all Char.isDigit = true) :
    digitsToNat cs = some (digitsVal cs) := by
  unfold digitsToNat digitsVal
  rw [if_neg (by simpa using hne)]
  exact digitsToNatAux_all cs 0 hall

theorem digitsToNat_none (cs : List Char) (h : cs = [] ∨ cs.all Char.isDigit = false) :
    digitsToNat cs = none := by
  unfold digitsToNat
  rcases h with rfl | h
  · rfl
  · rw [digitsToNatAux_not_all cs 0 h]
    simp

theorem specIsInt_sign (c : Char) (rest : List Char) (hc : c = '-' ∨ c = '+') :
    specIsInt (c :: rest) = (!rest.isEmpty && rest.all Char.isDigit) := by
  simp only [specIsInt]
  rw [if_pos hc]

theorem specIsInt_other (c : Char) (rest : List Char) (hm : c ≠ '-') (hp : c ≠ '+') :
    specIsInt (c :: rest) = (c :: rest).all Char.isDigit := by
  simp only [specIsInt]
  rw [if_neg (by tauto)]

theorem specIntValue_neg (rest : List Char) :
    specIntValue ('-' :: rest) = -(digitsVal rest : Int) := by
  simp [specIntValue]

theorem specIntValue_pos (rest : List Char) :
    specIntValue ('+' :: rest) = (digitsVal rest : Int) := by
  simp [specIntValue]

theorem specIntValue_other (c : Char) (rest : List Char) (hm : c ≠ '-') (hp : c ≠ '+') :
    specIntValue (c :: rest) = (digitsVal (c :: rest) : Int) := by
  simp only [specIntValue]
  rw [if_neg hm, if_neg hp]

theorem py_int_core_neg (rest : List Char) :
    py_int_core ('-' :: rest) = (digitsToNat rest).map (fun n => -(n : Int)) := by
  simp [py_int_core]

theorem py_int_core_pos (rest : List Char) :
    py_int_core ('+' :: rest) = (digitsToNat rest).map (fun n => (n : Int)) := by
  simp [py_int_core]

theorem py_int_core_other (c : Char) (rest : List Char) (hm : c ≠ '-') (hp : c ≠ '+') :
    py_int_core (c :: rest) = (digitsToNat (c :: rest)).map (fun n => (n : Int)) := by
  simp only [py_int_core]
  rw [if_neg hm, if_neg hp]

theorem py_int_core_of_spec (cs : List Char) (h : specIsInt cs = true) :
    py_int_core cs = some (specIntValue cs) := by
  cases cs with
  | nil => simp [specIsInt] at h
  | cons c rest =>
    by_cases hm : c = '-'
    · subst hm
      rw [specIsInt_sign _ _ (Or.inl rfl), Bool.and_eq_true] at h
      have hne : rest ≠ [] := by
        intro hE
        subst hE
        simp at h
      rw [py_int_core_neg, digitsToNat_all rest hne h.2, specIntValue_neg]
      rfl
    · by_cases hp : c = '+'
      · subst hp
        rw [specIsInt_sign _ _ (Or.inr rfl), Bool.and_eq_true] at h
        have hne : rest ≠ [] := by
          intro hE
          subst hE
          simp at h
        rw [py_int_core_pos, digitsToNat_all rest hne h.2, specIntValue_pos]
        rfl
      · rw [specIsInt_other c rest hm hp] at h
        rw [py_int_core_other c rest hm hp, digitsToNat_all (c :: rest) (by simp) h,
          specIntValue_other c rest hm hp]
        rfl

theorem py_int_core_none_of_not_spec (cs : List Char) (h : specIsInt cs = false) :
    py_int_core cs = none := by
  cases cs with
  | nil => rfl
  | cons c rest =>
    by_cases hm : c = '-'
    · subst hm
      rw [specIsInt_sign _ _ (Or.inl rfl), Bool.and_eq_false_iff] at h
      have hnone : digitsToNat rest = none := by
        apply digitsToNat_none
        rcases h with h | h
        · left
          cases rest with
          | nil => rfl
          | cons d ds => simp at h
        · right
          exact h
      rw [py_int_core_neg, hnone]
      rfl
    · by_cases hp : c = '+'
      · subst hp
        rw [specIsInt_sign _ _ (Or.inr rfl), Bool.and_eq_false_iff] at h
        have hnone : digitsToNat rest = none := by
          apply digitsToNat_none
          rcases h with h | h
          · left
            cases rest with
            | nil => rfl
            | cons d ds => simp at h
          · right
            exact h
        rw [py_int_core_pos, hnone]
        rfl
      · rw [specIsInt_other c rest hm hp] at h
        rw [py_int_core_other c rest hm hp, digitsToNat_none _ (Or.inr h)]
        rfl

theorem py_int_of_spec (cs : List Char) (h : specIsInt (py_strip cs) = true) :
    py_int cs = some (specIntValue (py_strip cs)) :=
  py_int_core_of_spec (py_strip cs) h

theorem py_int_none_of_not_spec (cs : List Char) (h : specIsInt (py_strip cs) = false) :
    py_int cs = none :=
  py_int_core_none_of_not_spec (py_strip cs) h

theorem parse_time_part_of_spec (p : List Char) (h : specIsTimePart p = true) :
    parse_time_part p = some (specTimePartValue p) := by
  by_cases hh : p.getLast? = some 'h'
  · have hcond : p.getLast? = some 'h' ∨ p.getLast? = some 'm' ∨ p.getLast? = some 's' :=
      Or.inl hh
    rw [specIsTimePart, if_pos hcond] at h
    rw [parse_time_part, if_pos hh, specTimePartValue, if_pos hh, py_int_of_spec _ h]
    rfl
  · by_cases hm : p.getLast? = some 'm'
    · have hcond : p.getLast? = some 'h' ∨ p.getLast? = some 'm' ∨ p.getLast? = some 's' :=
        Or.inr (Or.inl hm)
      rw [specIsTimePart, if_pos hcond] at h
      rw [parse_time_part, if_neg hh, if_pos hm, specTimePartValue, if_neg hh, if_pos hm,
        py_int_of_spec _ h]
      rfl
    · by_cases hs : p.getLast? = some 's'
      · have hcond : p.getLast? = some 'h' ∨ p.getLast? = some 'm' ∨ p.getLast? = some 's' :=
          Or.inr (Or.inr hs)
        rw [specIsTimePart, if_pos hcond] at h
        rw [parse_time_part, if_neg hh, if_neg hm, if_pos hs, specTimePartValue,
          if_neg hh, if_neg hm, if_pos hs, py_int_of_spec _ h]
      · have hcond : ¬(p.getLast? = some 'h' ∨ p.getLast? = some 'm' ∨
            p.getLast? = some 's') := by tauto
        rw [specIsTimePart, if_neg hcond] at h
        rw [parse_time_part, if_neg hh, if_neg hm, if_neg hs, specTimePartValue,
          if_neg hh, if_neg hm, if_neg hs, py_int_of_spec _ h]

theorem parse_time_part_none (p : List Char) (h : specIsTimePart p = false) :
    parse_time_part p = none := by
  by_cases hh : p.getLast? = some 'h'
  · have hcond : p.getLast? = some 'h' ∨ p.getLast? = some 'm' ∨ p.getLast? = some 's' :=
      Or.inl hh
    rw [specIsTimePart, if_pos hcond] at h
    rw [parse_time_part, if_pos hh, py_int_none_of_not_spec _ h]
    rfl
  · by_cases hm : p.getLast? = some 'm'
    · have hcond : p.getLast? = some 'h' ∨ p.getLast? = some 'm' ∨ p.getLast? = some 's' :=
        Or.inr (Or.inl hm)
      rw [specIsTimePart, if_pos hcond] at h
      rw [parse_time_part, if_neg hh, if_pos hm, py_int_none_of_not_spec _ h]
      rfl
    · by_cases hs : p.getLast? = some 's'
      · have hcond : p.getLast? = some 'h' ∨ p.getLast? = some 'm' ∨ p.getLast? = some 's' :=
          Or.inr (Or.inr hs)
        rw [specIsTimePart, if_pos hcond] at h
        rw [parse_time_part, if_neg hh, if_neg hm, if_pos hs, py_int_none_of_not_spec _ h]
      · have hcond : ¬(p.getLast? = some 'h' ∨ p.getLast? = some 'm' ∨
            p.getLast? = some 's') := by tauto
        rw [specIsTimePart, if_neg hcond] at h
        rw [parse_time_part, if_neg hh, if_neg hm, if_neg hs, py_int_none_of_not_spec _ h]

theorem split_commas_ne_nil : ∀ (cs : List Char), split_commas cs ≠ [] := by
  intro cs
  induction cs with
  | nil => simp [split_commas]
  | cons c rest ih =>
    simp only [split_commas]
    by_cases hc : c = ','
    · rw [if_pos hc]; simp
    · rw [if_neg hc]
      cases h : split_commas rest with
      | nil => exact absurd h ih
      | cons p ps => simp

theorem parse_weekdays_loop_sound : ∀ (parts : List (List Char)) (r : List Int),
    parse_weekdays_loop parts = some r →
    r.length = parts.length ∧ ∀ d ∈ r, 0 ≤ d ∧ d ≤ 6 := by
  intro parts
  induction parts with
  | nil =>
    intro r h
    simp only [parse_weekdays_loop, Option.some.injEq] at h
    subst h
    simp
  | cons p ps ih =>
    intro r h
    simp only [parse_weekdays_loop] at h
    cases hint : py_int p with
    | none =>
      simp only [hint] at h
      exact Option.noConfusion h
    | some day =>
      simp only [hint] at h
      by_cases hday : day < 0 ∨ day > 6
      · rw [if_pos hday] at h
        exact Option.noConfusion h
      · rw [if_neg hday] at h
        cases hloop : parse_weekdays_loop ps with
        | none =>
          rw [hloop] at h
          exact Option.noConfusion h
        | some rest =>
          rw [hloop] at h
          simp at h
          subst h
          obtain ⟨hlen, hall⟩ := ih rest hloop
          refine ⟨by simp [hlen], ?_⟩
          intro d hd
          rcases List.mem_cons.mp hd with rfl | hd
          · omega
          · exact hall d hd


/-! ### Claim theorems -/

theorem cfgZero_loop_none : ∀ (fuel k : Nat),
    trace_loop cfgZero gZero fuel 100 [] 0 locZ k = none := by
  intro fuel
  induction fuel with
  | zero => intro k; rfl
  | succ n ih =>
    intro k
    have hstep : trace_step cfgZero gZero [] 0 locZ k = Except.ok ([], 0, locZ, k + 2) := rfl
    rw [trace_loop, if_pos (by norm_num), hstep]
    exact ih (k + 2)

/-- Claim C1, counterexample: with no routes configured, one loop iteration
hits `NoAvailableRouteError` and `trace` yields an error, not a successful
partial list. -/
theorem noroute_not_caught_counterexample :
    trace tracerNoRoutes gZero 1 locA 0 none = some (Except.error ("A")) := rfl

/-- Claim C1, amended: the `NoAvailableRouteError` raised by the route
selector is not caught inside the trace loop; it propagates to the caller of
`trace`, discarding the accumulated partial list. -/
theorem noroute_error_propagates (tt : TravelTracer) (g : Nat → Nat)
    (fuel end_time : Nat) (points : List (Location × Nat)) (Tc : Nat)
    (Lc : Location) (k : Nat) (m : String)
    (hlt : Tc < end_time)
    (h : choose_route tt (weekday Tc) Lc = Except.error m) :
    trace_loop tt g (fuel + 1) end_time points Tc Lc k = some (Except.error m) := by
  rw [trace_loop, if_pos hlt]
  unfold trace_step
  rw [h]

theorem noroute_error_propagates_witness :
    (0 : Nat) < 86400 ∧
    choose_route tracerNoRoutes (weekday 0) locA = Except.error ("A") ∧
    trace_loop tracerNoRoutes gZero 1 86400 [] 0 locA 0 = some (Except.error ("A")) :=
  ⟨by decide, rfl,
    noroute_error_propagates tracerNoRoutes gZero 0 86400 [] 0 locA 0 ("A")
      (by decide) rfl⟩

/-- Claim C2: `generate_pings` emits `T, T+600, T+1200, ...` while strictly
below `T + d`; the count is `(d + 599) / 600`, which is `ceil(d / 600)` for
`d > 0` and `0` for `d = 0`; every emitted timestamp is strictly below
`T + d`. -/
theorem generate_pings_correct (loc : Location) (T d : Nat) :
    generate_pings loc T d = (List.range ((d + 599) / 600)).map (fun i => T + 600 * i) ∧
    (generate_pings loc T d).length = (d + 599) / 600 ∧
    ∀ t ∈ generate_pings loc T d, t < T + d :=
  ⟨generate_pings_eq loc T d, generate_pings_length loc T d,
    fun t ht => (generate_pings_mem loc T d t ht).2⟩

theorem generate_pings_correct_witness :
    (0 : Nat) ∈ generate_pings locA 0 1 ∧ (0 : Nat) < 0 + 1 :=
  ⟨by decide, (generate_pings_correct locA 0 1).2.2 0 (by decide)⟩

/-- Claim C4: each waypoint of a traversed route yields exactly one emitted
point, in route order, whatever its dwell; the recorded timestamp is the
engine time at the moment the waypoint is reached (`waypoint_arrivals` adds
the drawn dwell only after recording the arrival). -/
theorem trace_waypoints_one_event_each (g : Nat → Nat) (wps : List Location)
    (k Tc : Nat) :
    (trace_waypoints g k wps Tc).1.map Prod.fst = wps ∧
    (trace_waypoints g k wps Tc).1.map Prod.snd = waypoint_arrivals g k wps Tc :=
  ⟨trace_waypoints_fst g wps k Tc, trace_waypoints_snd g wps k Tc⟩

/-- Claim C5, counterexample: the returned trace ties `(locW5, 0)` (a
zero-dwell waypoint observation) with `(locB5, 0)`, the first periodic ping
of a stop whose dwell is 600 seconds — so adjacent equal timestamps are not
restricted to pairs of zero-dwell single-instant entries. -/
theorem trace_tie_counterexample :
    trace cfgC5 gZero 2 locA5 0 (some 1) =
      some (Except.ok [(locW5, 0), (locB5, 0)]) ∧
    locB5.visit_time = (600, 600) := ⟨rfl, rfl⟩

/-- Claim C5, amended: every successful result of `trace` has non-decreasing
timestamps; adjacent equal timestamps are possible, and the later entry of a
tied pair need not be a zero-dwell single-instant entry. -/
theorem trace_timestamps_monotone (tt : TravelTracer) (g : Nat → Nat)
    (fuel : Nat) (start_at : Location) (start_time : Nat) (end_time : Option Nat)
    (res : List (Location × Nat))
    (h : trace tt g fuel start_at start_time end_time = some (Except.ok res)) :
    (res.map Prod.snd).Pairwise (· ≤ ·) :=
  trace_loop_sorted tt g fuel _ [] start_time start_at 0 res (by simp) (by simp) h

theorem trace_timestamps_monotone_witness :
    trace cfgPos gZero 1 locP 5 (some 5) = some (Except.ok []) ∧
    (([] : List (Location × Nat)).map Prod.snd).Pairwise (· ≤ ·) :=
  ⟨rfl, trace_timestamps_monotone cfgPos gZero 1 locP 5 (some 5) [] rfl⟩

/-- Claim C6, counterexample: on the zero-dwell self-loop configuration one
iteration succeeds (no route exhaustion) yet advances `current_time` by 0,
and the loop never finishes, whatever the fuel. -/
theorem zero_dwell_loop_counterexample :
    trace_step cfgZero gZero [] 0 locZ 0 = Except.ok ([], 0, locZ, 2) ∧
    zero_dwell_runs_forever :=
  ⟨rfl, fun fuel => cfgZero_loop_none fuel 0⟩

/-- Claim C6, amended: when every route's start location has a strictly
positive minimal dwell, every iteration below `end_time` advances
`current_time` by at least one second, so the loop resolves (successfully or
with a propagated selector error) within `end_time - start_time + 1`
iterations. -/
theorem trace_terminates_of_positive_dwell (tt : TravelTracer) (g : Nat → Nat)
    (fuel : Nat) (start_at : Location) (start_time : Nat) (end_time : Option Nat)
    (hpos : ∀ r ∈ tt.routes, 0 < r.start_at.visit_time.1)
    (hfuel : end_time.getD (start_time + 86400) - start_time < fuel) :
    (trace tt g fuel start_at start_time end_time).isSome = true :=
  trace_loop_isSome tt g hpos fuel _ [] start_time start_at 0 hfuel

theorem trace_terminates_witness :
    (∀ r ∈ cfgPos.routes, 0 < r.start_at.visit_time.1) ∧
    (trace cfgPos gZero 86401 locP 0 none).isSome = true :=
  ⟨by decide, trace_terminates_of_positive_dwell cfgPos gZero 86401 locP 0 none
    (by decide) (by decide)⟩

/-- Claim C7 (code bug): a `Route` constructed without a weekdays argument
gets `range(8) = (0, ..., 7)` as its active weekdays — the out-of-range
value 7 included — not the documented `(0, ..., 6)`. -/
theorem default_weekdays_include_seven :
    mkRoute ("r") locA locB none 1 none = Except.ok routeDefault ∧
    routeDefault.weekdays = [0, 1, 2, 3, 4, 5, 6, 7] ∧
    routeDefault.weekdays ≠ [0, 1, 2, 3, 4, 5, 6] :=
  ⟨rfl, rfl, by decide⟩

/-- Claim C8 (code bug): the constructor's probability test
`probability < 0.0 and probability > 1.0` is unsatisfiable, so probabilities
outside [0, 1] — such as 3/2 and -1/2 — are accepted instead of rejected. -/
theorem route_accepts_out_of_range_probability :
    mkRoute ("r") locA locB none (3 / 2) none = Except.ok routeProb32 ∧
    mkRoute ("r") locA locB none (-1 / 2) none = Except.ok routeProbNeg ∧
    ¬((3 : ℚ) / 2 ≤ 1) ∧ ¬(0 ≤ (-1 : ℚ) / 2) := by
  refine ⟨?_, ?_, by norm_num, by norm_num⟩
  · unfold mkRoute
    rw [if_neg (by norm_num)]
    rfl
  · unfold mkRoute
    rw [if_neg (by norm_num)]
    rfl

/-- Claim C9, counterexample: Python `int()` strips surrounding ASCII
whitespace, so the source accepts a tab-padded part.  On the string
`42,<TAB>5` the second comma-part keeps its tab after space removal and is
neither a bare integer nor a suffixed integer (a tab is no digit), yet
`parse_visit_time` succeeds with `(42, 5)` instead of raising. -/
theorem visit_time_whitespace_counterexample :
    parse_visit_time (['4', '2', ',', '\t', '5']) ("L") = Except.ok (42, 5) ∧
    split_commas ((['4', '2', ',', '\t', '5']).filter (fun c => c ≠ ' ')) =
      [['4', '2'], ['\t', '5']] ∧
    ('\t').isDigit = false :=
  ⟨rfl, rfl, rfl⟩

/-- Claim C9, amended: whenever the space-stripped visit_time string splits
on commas into exactly two parts, each an optionally-signed integer —
tolerating surrounding ASCII whitespace around the integer body, as Python
`int()` does — optionally carrying a final suffix h, m or s,
`parse_visit_time` returns the two values in seconds (h multiplied by 3600,
m by 60, s and bare taken as they are); every string not of that shape
produces an error carrying the offending location's name. -/
theorem parse_visit_time_correct (s : List Char) (loc : String) :
    (∀ p1 p2, split_commas (s.filter (fun c => c ≠ ' ')) = [p1, p2] →
      specIsTimePart p1 = true → specIsTimePart p2 = true →
      parse_visit_time s loc = Except.ok (specTimePartValue p1, specTimePartValue p2))
    ∧ (specWellFormedVisitTime s = false → parse_visit_time s loc = Except.error loc) := by
  constructor
  · intro p1 p2 hsplit h1 h2
    unfold parse_visit_time
    rw [hsplit]
    simp only [parse_time_part_of_spec p1 h1, parse_time_part_of_spec p2 h2]
  · intro hwf
    unfold specWellFormedVisitTime at hwf
    unfold parse_visit_time
    cases hsplit : split_commas (s.filter (fun c => c ≠ ' ')) with
    | nil => rfl
    | cons p1 tail =>
      cases tail with
      | nil => rfl
      | cons p2 tail2 =>
        cases tail2 with
        | nil =>
          rw [hsplit] at hwf
          rw [Bool.and_eq_false_iff] at hwf
          rcases hwf with hwf | hwf
          · simp only [parse_time_part_none p1 hwf]
          · simp only [parse_time_part_none p2 hwf]
            cases parse_time_part p1 <;> rfl
        | cons p3 tail3 => rfl

theorem parse_visit_time_correct_witness :
    split_commas ((['1', 'h', ',', '3', '0', 'm']).filter (fun c => c ≠ ' ')) =
      [['1', 'h'], ['3', '0', 'm']] ∧
    specIsTimePart (['1', 'h']) = true ∧
    parse_visit_time (['1', 'h', ',', '3', '0', 'm']) ("L") = Except.ok (3600, 1800) :=
  ⟨rfl, rfl, (parse_visit_time_correct (['1', 'h', ',', '3', '0', 'm']) ("L")).1
    (['1', 'h']) (['3', '0', 'm']) rfl rfl rfl⟩

/-- Claim C10: a successful `parse_weekdays` result is a non-empty list of
integers all within 0..6, and a route built from it keeps exactly that list
as its active weekdays; only the omitted-weekdays default
(`route_weekdays none`, i.e. `range(8)`) introduces the value 7. -/
theorem parse_weekdays_range (s : List Char) (name : String) (r : List Int)
    (h : parse_weekdays s name = Except.ok r) :
    r ≠ [] ∧ (∀ d ∈ r, 0 ≤ d ∧ d ≤ 6) ∧ route_weekdays (some r) = r ∧
    (7 : Int) ∈ route_weekdays none := by
  unfold parse_weekdays at h
  cases hloop : parse_weekdays_loop (split_commas (s.filter (fun c => c ≠ ' '))) with
  | none =>
    simp only [hloop] at h
    exact Except.noConfusion h
  | some result =>
    simp only [hloop, Except.ok.injEq] at h
    subst h
    obtain ⟨hlen, hbound⟩ := parse_weekdays_loop_sound _ _ hloop
    have hne : result ≠ [] := by
      intro hempty
      rw [hempty] at hlen
      have h0 : (split_commas (s.filter (fun c => c ≠ ' '))).length = 0 := hlen.symm
      exact split_commas_ne_nil _ (List.length_eq_zero.mp h0)
    refine ⟨hne, hbound, ?_, by decide⟩
    simp only [route_weekdays]
    rw [if_neg hne]

theorem parse_weekdays_range_witness :
    parse_weekdays (['0', ',', '6']) ("r") = Except.ok [0, 6] ∧
    (([0, 6] : List Int) ≠ [] ∧ (∀ d ∈ ([0, 6] : List Int), 0 ≤ d ∧ d ≤ 6) ∧
      route_weekdays (some [0, 6]) = [0, 6] ∧ (7 : Int) ∈ route_weekdays none) :=
  ⟨rfl, parse_weekdays_range (['0', ',', '6']) ("r") [0, 6] rfl⟩

end GpsTrace
